import Mathlib

/-!
Verification of core behaviours of the QR Toolkit repository: the
`QRCodeData` model (`src/core/models.py`), the SQLite persistence layer
(`src/core/database.py`), the render/batch pipeline (`src/core/engine.py`)
and the scanner confidence heuristic (`src/core/scanner.py`).

Python `float` arithmetic is modelled over `ℚ` (exact) except for the
gradient pipeline, whose square roots are modelled over `ℝ`; SQLite column
values are modelled by explicit option and sum types.
-/

namespace QRT

/-- Python truthiness of an optional string: `None` and `""` are falsy. -/
def strFalsy : Option String → Bool
  | none => true
  | some s => s == ""

/-- `utils.constants.QRCodeType` enumeration. -/
inductive QRCodeType
  | URL | TEXT | WIFI | VCARD | EMAIL | SMS | PHONE
  | LOCATION | EVENT | BITCOIN | CONTACT | WHATSAPP
  deriving DecidableEq, Repr

/-- The `.value` string of each `QRCodeType` member. -/
def QRCodeType.value : QRCodeType → String
  | .URL => "URL"
  | .TEXT => "文本"
  | .WIFI => "WiFi"
  | .VCARD => "电子名片"
  | .EMAIL => "电子邮件"
  | .SMS => "短信"
  | .PHONE => "电话"
  | .LOCATION => "地理位置"
  | .EVENT => "日历事件"
  | .BITCOIN => "比特币"
  | .CONTACT => "联系人"
  | .WHATSAPP => "WhatsApp"

/-- `QRCodeType(s)`: enum lookup by value string; `none` models the
`ValueError` raised for an unrecognized value. -/
def QRCodeType.ofValue (s : String) : Option QRCodeType :=
  if s == "URL" then some .URL
  else if s == "文本" then some .TEXT
  else if s == "WiFi" then some .WIFI
  else if s == "电子名片" then some .VCARD
  else if s == "电子邮件" then some .EMAIL
  else if s == "短信" then some .SMS
  else if s == "电话" then some .PHONE
  else if s == "地理位置" then some .LOCATION
  else if s == "日历事件" then some .EVENT
  else if s == "比特币" then some .BITCOIN
  else if s == "联系人" then some .CONTACT
  else if s == "WhatsApp" then some .WHATSAPP
  else none

/-- The `QRCodeData` dataclass (`src/core/models.py`), after
`__post_init__` has run. -/
structure QRCodeData where
  id : String
  data : String
  qr_type : QRCodeType
  version : ℤ
  error_correction : String
  size : ℤ
  border : ℤ
  foreground_color : String
  background_color : String
  logo_path : Option String
  logo_scale : ℚ
  gradient_start : Option String
  gradient_end : Option String
  gradient_type : String
  created_at : String
  tags : List String
  notes : Option String
  output_format : String
  deriving DecidableEq, Repr

/-- Dataclass construction followed by `QRCodeData.__post_init__`:
`created_at` is replaced by `now` (standing for
`datetime.now().isoformat()`) when empty, a `None` tag list becomes `[]`,
`logo_scale` is clamped into `[0.05, 0.5]`, and then reset to `0.2`
whenever `logo_path` is falsy. -/
def mkQRCodeData (now : String) (id data : String) (qr_type : QRCodeType) (version : ℤ)
    (error_correction : String) (size border : ℤ)
    (foreground_color background_color : String)
    (logo_path : Option String) (logo_scale : ℚ)
    (gradient_start gradient_end : Option String) (gradient_type : String)
    (created_at : String) (tags : Option (List String)) (notes : Option String)
    (output_format : String) : QRCodeData :=
  let created_at := if created_at == "" then now else created_at
  let tags := tags.getD []
  let logo_scale :=
    if logo_scale < 1/20 then 1/20
    else if 1/2 < logo_scale then 1/2
    else logo_scale
  let logo_scale := if strFalsy logo_path then 1/5 else logo_scale
  ⟨id, data, qr_type, version, error_correction, size, border, foreground_color,
    background_color, logo_path, logo_scale, gradient_start, gradient_end, gradient_type,
    created_at, tags, notes, output_format⟩

/-- Python `str.strip()`: whitespace removed at both ends. -/
def pyStrip (s : String) : String :=
  ⟨((s.data.dropWhile Char.isWhitespace).reverse.dropWhile Char.isWhitespace).reverse⟩

/-- One hexadecimal digit, `[A-Fa-f0-9]`. -/
def isHexDigit (c : Char) : Bool :=
  (('0' ≤ c) && (c ≤ '9')) || (('a' ≤ c) && (c ≤ 'f')) || (('A' ≤ c) && (c ≤ 'F'))

/-- `utils.constants.is_valid_color`:
`re.match(COLOR_HEX_PATTERN, s)` with pattern
`^#([A-Fa-f0-9]{6}|[A-Fa-f0-9]{3})$`.  Python's `$` also matches just
before a single trailing newline. -/
def is_valid_color (s : String) : Bool :=
  match s.data with
  | '#' :: rest =>
    let body := if rest.getLast? == some '\n' then rest.dropLast else rest
    (body.length == 6 || body.length == 3) && body.all isHexDigit
  | _ => false

/-- `QRCodeData.validate` (boolean part only; the returned message strings
and the no-op logo-file existence check are dropped). -/
def QRCodeData.validate (r : QRCodeData) : Bool :=
  !(r.data == "" || pyStrip r.data == "") &&
  !(decide (r.size < 1) || decide (50 < r.size)) &&
  !(decide (r.border < 0) || decide (10 < r.border)) &&
  !(decide (r.version < 0) || decide (40 < r.version)) &&
  (r.error_correction == "L" || r.error_correction == "M" ||
    r.error_correction == "Q" || r.error_correction == "H") &&
  !(decide (r.logo_scale < 1/20) || decide (1/2 < r.logo_scale)) &&
  is_valid_color r.foreground_color &&
  is_valid_color r.background_color &&
  (strFalsy r.gradient_start || is_valid_color (r.gradient_start.getD "")) &&
  (strFalsy r.gradient_end || is_valid_color (r.gradient_end.getD "")) &&
  !((!strFalsy r.gradient_start && strFalsy r.gradient_end) ||
    (!strFalsy r.gradient_end && strFalsy r.gradient_start)) &&
  (r.gradient_type == "linear" || r.gradient_type == "radial")

/-- Lower-case hexadecimal digit character, as produced by `json.dumps`
for control-character escapes. -/
def hexChar (n : ℕ) : Char :=
  if n < 10 then Char.ofNat ('0'.toNat + n) else Char.ofNat ('a'.toNat + (n - 10))

/-- `json.dumps` escaping of one character (`ensure_ascii=False`): quote,
backslash and the named control escapes, other control characters as
`\u00xx`, everything else verbatim. -/
def escChar (c : Char) : List Char :=
  if c == '"' then ['\\', '"']
  else if c == '\\' then ['\\', '\\']
  else if c == '\n' then ['\\', 'n']
  else if c == '\r' then ['\\', 'r']
  else if c == '\t' then ['\\', 't']
  else if c == '\x08' then ['\\', 'b']
  else if c == '\x0c' then ['\\', 'f']
  else if c.toNat < 32 then ['\\', 'u', '0', '0', hexChar (c.toNat / 16), hexChar (c.toNat % 16)]
  else [c]

/-- Encoding of the items of a non-empty string list: first item quoted,
remaining items each preceded by the default `", "` item separator, then
the closing bracket. -/
def jsonEncTail : List (List Char) → List Char
  | [] => [']']
  | s :: rest => ',' :: ' ' :: '"' :: (s.flatMap escChar ++ ('"' :: jsonEncTail rest))

/-- `json.dumps(tags, ensure_ascii=False)` for a list of strings. -/
def jsonDumpsList (l : List String) : String :=
  match l.map String.data with
  | [] => "[]"
  | s :: rest => ⟨'[' :: '"' :: (s.flatMap escChar ++ ('"' :: jsonEncTail rest))⟩

/-- Numeric value of one hexadecimal digit character. -/
def hexVal (c : Char) : Option ℕ :=
  if ('0' ≤ c) && (c ≤ '9') then some (c.toNat - '0'.toNat)
  else if ('a' ≤ c) && (c ≤ 'f') then some (c.toNat - 'a'.toNat + 10)
  else if ('A' ≤ c) && (c ≤ 'F') then some (c.toNat - 'A'.toNat + 10)
  else none

/-- JSON named escape codes `\n \r \t \b \f \" \\ \/`. -/
def escCode (e : Char) : Option Char :=
  if e == 'n' then some '\n'
  else if e == 'r' then some '\r'
  else if e == 't' then some '\t'
  else if e == 'b' then some '\x08'
  else if e == 'f' then some '\x0c'
  else if e == '"' then some '"'
  else if e == '\\' then some '\\'
  else if e == '/' then some '/'
  else none

/-- JSON string-literal body (after the opening quote): decoded characters
plus the input following the closing quote. -/
def parseStringBody : List Char → Option (List Char × List Char)
  | [] => none
  | c :: rest =>
    if c == '"' then some ([], rest)
    else if c == '\\' then
      match rest with
      | [] => none
      | e :: r =>
        if e == 'u' then
          match r with
          | h1 :: h2 :: h3 :: h4 :: r2 =>
            match hexVal h1, hexVal h2, hexVal h3, hexVal h4 with
            | some a, some b, some cc, some d =>
              (parseStringBody r2).map fun p =>
                (Char.ofNat (((a * 16 + b) * 16 + cc) * 16 + d) :: p.1, p.2)
            | _, _, _, _ => none
          | _ => none
        else
          match escCode e with
          | some d => (parseStringBody r).map fun p => (d :: p.1, p.2)
          | none => none
    else (parseStringBody rest).map fun p => (c :: p.1, p.2)

/-- JSON insignificant whitespace. -/
def skipSpaces (l : List Char) : List Char :=
  l.dropWhile fun c => c == ' ' || c == '\t' || c == '\n' || c == '\r'

theorem skipSpaces_length_le (l : List Char) : (skipSpaces l).length ≤ l.length := by
  unfold skipSpaces
  induction l with
  | nil => simp
  | cons a l ih =>
    rw [List.dropWhile_cons]
    split
    · simp only [List.length_cons]; omega
    · simp

theorem parseStringBody_length_lt :
    ∀ n l s r, l.length ≤ n → parseStringBody l = some (s, r) → r.length < l.length := by
  intro n
  induction n with
  | zero =>
    intro l s r hl h
    match l with
    | [] => simp [parseStringBody] at h
    | _ :: _ => simp at hl
  | succ n ih =>
    intro l s r hl h
    match l with
    | [] => simp [parseStringBody] at h
    | c :: rest =>
      unfold parseStringBody at h
      repeat' split at h
      all_goals
        first
        | exact Option.noConfusion h
        | (cases Option.some.inj h; simp)
        | (rw [Option.map_eq_some'] at h
           obtain ⟨⟨s1, r1⟩, hp, he⟩ := h
           obtain ⟨-, rfl⟩ := Prod.mk.injEq .. ▸ he
           simp only [List.length_cons] at hl ⊢
           have := ih _ s1 r1 (by omega) hp
           omega)

/-- Array-of-strings continuation: after one parsed item, expect `]` or a
comma followed by the next string literal. -/
def parseArrayTail (l : List Char) : Option (List String × List Char) :=
  match hs : skipSpaces l with
  | ']' :: r => some ([], r)
  | ',' :: r =>
    match hb : skipSpaces r with
    | '"' :: r2 =>
      match hp : parseStringBody r2 with
      | some (s, r3) =>
        match parseArrayTail r3 with
        | some (ss, r4) => some (⟨s⟩ :: ss, r4)
        | none => none
      | none => none
    | _ => none
  | _ => none
termination_by l.length
decreasing_by
  have h1 := skipSpaces_length_le l
  have h2 := skipSpaces_length_le r
  have h3 := parseStringBody_length_lt r2.length r2 s r3 le_rfl hp
  rw [hs] at h1
  rw [hb] at h2
  simp at h1 h2
  omega

theorem hexVal_hexChar (n : ℕ) (h : n < 16) : hexVal (hexChar n) = some n := by
  interval_cases n <;> decide

theorem stringEta (s : String) : (⟨s.data⟩ : String) = s := rfl

theorem psb_quote (rest : List Char) : parseStringBody ('"' :: rest) = some ([], rest) := by
  rw [parseStringBody.eq_def]
  simp

theorem psb_named (e d : Char) (he : escCode e = some d) (hu : (e == 'u') = false)
    (r : List Char) :
    parseStringBody ('\\' :: e :: r) = (parseStringBody r).map fun p => (d :: p.1, p.2) := by
  rw [parseStringBody.eq_def]
  simp [he, hu]

theorem psb_u (hx1 hx2 hx3 hx4 : Char) (r2 : List Char) (a b cc d : ℕ)
    (e1 : hexVal hx1 = some a) (e2 : hexVal hx2 = some b)
    (e3 : hexVal hx3 = some cc) (e4 : hexVal hx4 = some d) :
    parseStringBody ('\\' :: 'u' :: hx1 :: hx2 :: hx3 :: hx4 :: r2) =
      (parseStringBody r2).map fun p =>
        (Char.ofNat (((a * 16 + b) * 16 + cc) * 16 + d) :: p.1, p.2) := by
  rw [parseStringBody.eq_def]
  simp [e1, e2, e3, e4]

theorem psb_plain (c : Char) (hc1 : (c == '"') = false) (hc2 : (c == '\\') = false)
    (rest : List Char) :
    parseStringBody (c :: rest) = (parseStringBody rest).map fun p => (c :: p.1, p.2) := by
  rw [parseStringBody.eq_def]
  simp [hc1, hc2]

theorem escChar_ctrl (c : Char) (h : c.toNat < 32) (hn : c ≠ '\n') (hr : c ≠ '\r')
    (ht : c ≠ '\t') (hb : c ≠ '\x08') (hf : c ≠ '\x0c') :
    escChar c = ['\\', 'u', '0', '0', hexChar (c.toNat / 16), hexChar (c.toNat % 16)] := by
  have hq : c ≠ '"' := by rintro rfl; exact absurd h (by decide)
  have hbs : c ≠ '\\' := by rintro rfl; exact absurd h (by decide)
  simp [escChar, hq, hbs, hn, hr, ht, hb, hf, h]

theorem escChar_plain (c : Char) (hq : c ≠ '"') (hbs : c ≠ '\\')
    (h : ¬ c.toNat < 32) : escChar c = [c] := by
  have hn : c ≠ '\n' := by rintro rfl; exact h (by decide)
  have hr : c ≠ '\r' := by rintro rfl; exact h (by decide)
  have ht : c ≠ '\t' := by rintro rfl; exact h (by decide)
  have hb : c ≠ '\x08' := by rintro rfl; exact h (by decide)
  have hf : c ≠ '\x0c' := by rintro rfl; exact h (by decide)
  simp [escChar, hq, hbs, hn, hr, ht, hb, hf, h]

theorem parseStringBody_escape (s rest : List Char) :
    parseStringBody (s.flatMap escChar ++ '"' :: rest) = some (s, rest) := by
  induction s with
  | nil => exact psb_quote rest
  | cons c s ih =>
    rw [List.flatMap_cons, List.append_assoc]
    by_cases hq : c = '"'
    · subst hq
      rw [show escChar '"' = ['\\', '"'] by decide]
      simp only [List.cons_append, List.nil_append]
      rw [psb_named '"' '"' (by decide) (by decide), ih]
      rfl
    by_cases hbs : c = '\\'
    · subst hbs
      rw [show escChar '\\' = ['\\', '\\'] by decide]
      simp only [List.cons_append, List.nil_append]
      rw [psb_named '\\' '\\' (by decide) (by decide), ih]
      rfl
    by_cases hn : c = '\n'
    · subst hn
      rw [show escChar '\n' = ['\\', 'n'] by decide]
      simp only [List.cons_append, List.nil_append]
      rw [psb_named 'n' '\n' (by decide) (by decide), ih]
      rfl
    by_cases hr : c = '\r'
    · subst hr
      rw [show escChar '\r' = ['\\', 'r'] by decide]
      simp only [List.cons_append, List.nil_append]
      rw [psb_named 'r' '\r' (by decide) (by decide), ih]
      rfl
    by_cases ht : c = '\t'
    · subst ht
      rw [show escChar '\t' = ['\\', 't'] by decide]
      simp only [List.cons_append, List.nil_append]
      rw [psb_named 't' '\t' (by decide) (by decide), ih]
      rfl
    by_cases hb : c = '\x08'
    · subst hb
      rw [show escChar '\x08' = ['\\', 'b'] by decide]
      simp only [List.cons_append, List.nil_append]
      rw [psb_named 'b' '\x08' (by decide) (by decide), ih]
      rfl
    by_cases hf : c = '\x0c'
    · subst hf
      rw [show escChar '\x0c' = ['\\', 'f'] by decide]
      simp only [List.cons_append, List.nil_append]
      rw [psb_named 'f' '\x0c' (by decide) (by decide), ih]
      rfl
    by_cases hctl : c.toNat < 32
    · rw [escChar_ctrl c hctl hn hr ht hb hf]
      simp only [List.cons_append, List.nil_append]
      have hhi : hexVal (hexChar (c.toNat / 16)) = some (c.toNat / 16) :=
        hexVal_hexChar _ (by omega)
      have hlo : hexVal (hexChar (c.toNat % 16)) = some (c.toNat % 16) :=
        hexVal_hexChar _ (by omega)
      rw [psb_u '0' '0' (hexChar (c.toNat / 16)) (hexChar (c.toNat % 16)) _ 0 0
            (c.toNat / 16) (c.toNat % 16) (by decide) (by decide) hhi hlo, ih]
      rw [show ((0 * 16 + 0) * 16 + c.toNat / 16) * 16 + c.toNat % 16 = c.toNat by omega,
        Char.ofNat_toNat c]
      rfl
    · rw [escChar_plain c hq hbs hctl]
      simp only [List.cons_append, List.nil_append]
      rw [psb_plain c (beq_eq_false_iff_ne.mpr hq) (beq_eq_false_iff_ne.mpr hbs), ih]
      rfl

/-- `json.loads` restricted to a document that is an array of string
literals (the only shape `json.dumps` produces for a tag list); any other
document yields `none`. -/
def jsonLoadsList (s : String) : Option (List String) :=
  let parsed : Option (List String × List Char) :=
    match skipSpaces s.data with
    | '[' :: l =>
      match skipSpaces l with
      | ']' :: r => some ([], r)
      | '"' :: r =>
        match parseStringBody r with
        | some (t, r2) =>
          match parseArrayTail r2 with
          | some (ts, r3) => some (⟨t⟩ :: ts, r3)
          | none => none
        | none => none
      | _ => none
    | _ => none
  match parsed with
  | some (ts, rest) => if skipSpaces rest == [] then some ts else none
  | none => none

theorem parseArrayTail_encTail (l : List (List Char)) :
    parseArrayTail (jsonEncTail l) = some (l.map fun cs => (⟨cs⟩ : String), []) := by
  induction l with
  | nil =>
    rw [parseArrayTail.eq_def]
    split <;> simp_all [jsonEncTail, skipSpaces, List.dropWhile]
  | cons s l ih =>
    rw [jsonEncTail, parseArrayTail.eq_def]
    split <;> simp_all [skipSpaces, List.dropWhile]
    rename_i r hr
    subst hr
    split <;> simp_all [List.dropWhile]
    rename_i r2 hr2
    subst hr2
    split <;> simp_all [parseStringBody_escape]

theorem jsonLoadsList_dumps (l : List String) : jsonLoadsList (jsonDumpsList l) = some l := by
  cases l with
  | nil => rfl
  | cons s rest =>
    unfold jsonDumpsList
    simp only [List.map_cons]
    unfold jsonLoadsList
    have hmap : List.map ((fun cs => (⟨cs⟩ : String)) ∘ String.data) rest = rest := by
      have hco : ((fun cs => (⟨cs⟩ : String)) ∘ String.data) = id := funext stringEta
      rw [hco, List.map_id]
    simp [skipSpaces, parseStringBody_escape, parseArrayTail_encTail, stringEta,
      List.map_map, hmap]

theorem jsonDumpsList_ne_empty (l : List String) : (jsonDumpsList l == "") = false := by
  cases l with
  | nil => rfl
  | cons s rest =>
    unfold jsonDumpsList
    simp only [List.map_cons]
    simp [String.ext_iff]

/-- A value held in the `logo_scale` column (SQLite is dynamically
typed: legacy rows may hold an integer, a real, or text). -/
inductive SqlVal
  | int (n : ℤ)
  | real (q : ℚ)
  | text (s : String)
  deriving DecidableEq, Repr

/-- One row of the `qrcodes` table, in `SELECT *` column order.
`none` models SQL NULL; for `logo_scale` (a column added by `ALTER TABLE`)
it also models a legacy row with fewer than 18 columns, which takes the
same `0.2` default in `_row_to_qrcode_data`. -/
structure DBRow where
  id : String
  data : String
  qr_type : String
  version : Option ℤ
  error_correction : Option String
  size : Option ℤ
  border : Option ℤ
  foreground_color : Option String
  background_color : Option String
  logo_path : Option String
  gradient_start : Option String
  gradient_end : Option String
  gradient_type : Option String
  created_at : Option String
  tags : Option String
  notes : Option String
  output_format : Option String
  logo_scale : Option SqlVal
  deriving DecidableEq, Repr

/-- The row written by `QRCodeDatabase.save_qrcode` for a record (new
schema, `logo_scale` column present): every field bound positionally,
tags serialized with `json.dumps`, `logo_scale` stored as a REAL. -/
def saveRow (r : QRCodeData) : DBRow :=
  ⟨r.id, r.data, r.qr_type.value, some r.version, some r.error_correction,
    some r.size, some r.border, some r.foreground_color, some r.background_color,
    r.logo_path, r.gradient_start, r.gradient_end, some r.gradient_type,
    some r.created_at, some (jsonDumpsList r.tags), r.notes, some r.output_format,
    some (.real r.logo_scale)⟩

/-- The value of decimal digit characters (most significant first). -/
def digitsVal (l : List Char) : ℕ :=
  l.foldl (fun acc c => acc * 10 + (c.toNat - '0'.toNat)) 0

/-- Python `float(s)` restricted to plain decimal literals (optional sign,
digits, optional fractional part).  The other forms Python accepts
(exponents, `inf`, `nan`, underscores) are modelled as failures: no claim
exercises them, since `save_qrcode` stores `logo_scale` as a REAL. -/
def pyFloatOfString (s : String) : Option ℚ :=
  let isDigit : Char → Bool := fun c => ('0' ≤ c) && (c ≤ '9')
  let l := s.data.dropWhile Char.isWhitespace
  let l := (l.reverse.dropWhile Char.isWhitespace).reverse
  let signed : ℚ × List Char :=
    match l with
    | '-' :: t => (-1, t)
    | '+' :: t => (1, t)
    | t => (1, t)
  let sign := signed.1
  let body := signed.2
  let intPart := body.takeWhile isDigit
  let rest := body.dropWhile isDigit
  match rest with
  | [] =>
    if intPart == [] then none
    else some (sign * digitsVal intPart)
  | '.' :: frac =>
    if frac.all isDigit && !(intPart == [] && frac == []) then
      some (sign * ((digitsVal intPart : ℚ) +
        (digitsVal frac : ℚ) / ((10 : ℚ) ^ frac.length)))
    else none
  | _ => none

/-- `x if x else default` for a TEXT column (NULL and `""` are falsy). -/
def orElseStr (o : Option String) (d : String) : String :=
  match o with
  | some s => if s == "" then d else s
  | none => d

/-- An optional TEXT column normalized by `row[i] if row[i] else None`. -/
def emptyToNone (o : Option String) : Option String :=
  match o with
  | some s => if s == "" then none else some s
  | none => none

/-- The magnitude heuristic of `_row_to_qrcode_data`: a numeric
`logo_scale` above 1 is taken to be a whole-number percentage. -/
def pctCoerce (q : ℚ) : ℚ :=
  if 1 < q then q / 100 else q

/-- `QRCodeDatabase._row_to_qrcode_data`.  `now` stands for
`datetime.now().isoformat()` inside `QRCodeData.__post_init__`.
In this typed model none of the caught `(IndexError, ValueError,
TypeError)` conditions can arise, so the result is always `some`;
the `Option` return mirrors the Python signature. -/
def rowToQRCodeData (now : String) (row : DBRow) : Option QRCodeData :=
  let tags : List String :=
    match row.tags with
    | none => []
    | some s =>
      if s == "" then []
      else
        match jsonLoadsList s with
        | some l => l
        | none => []
  let qr_type : QRCodeType :=
    match QRCodeType.ofValue row.qr_type with
    | some t => t
    | none => QRCodeType.TEXT
  let logo_path := emptyToNone row.logo_path
  let logo_scale : ℚ :=
    match row.logo_scale with
    | none => 1/5
    | some v =>
      match v with
      | .int n => if n == 0 then 1/5 else pctCoerce (n : ℚ)
      | .real q => if q == 0 then 1/5 else pctCoerce q
      | .text s =>
        if s == "" then 1/5
        else
          match pyFloatOfString s with
          | some q => q
          | none => 1/5
  some (mkQRCodeData now row.id row.data qr_type
    (row.version.getD 0)
    (orElseStr row.error_correction "H")
    (row.size.getD 10)
    (row.border.getD 4)
    (orElseStr row.foreground_color "#000000")
    (orElseStr row.background_color "#FFFFFF")
    logo_path
    logo_scale
    (emptyToNone row.gradient_start)
    (emptyToNone row.gradient_end)
    (orElseStr row.gradient_type "linear")
    (orElseStr row.created_at "")
    (some tags)
    (some (orElseStr row.notes ""))
    (orElseStr row.output_format "PNG"))

theorem is_valid_color_ne_empty (s : String) (h : is_valid_color s = true) : s ≠ "" := by
  intro he
  subst he
  exact absurd h (by decide)

theorem ofValue_value (t : QRCodeType) : QRCodeType.ofValue t.value = some t := by
  cases t <;> rfl

theorem strFalsy_emptyToNone (o : Option String) :
    strFalsy (emptyToNone o) = strFalsy o := by
  rcases o with _ | s
  · rfl
  · by_cases h : s = "" <;> simp [emptyToNone, strFalsy, h]

/-- C2: for every valid constructed `QRCodeData` record (validation passes,
`created_at` non-empty as `__post_init__` guarantees, and the
`__post_init__` invariant that a falsy `logo_path` forces `logo_scale`
0.2), saving via `save_qrcode` and decoding the stored row back via
`load_qrcode` / `_row_to_qrcode_data` returns a record equal to the
original in every field, except that fields the source left unset (empty
optional strings, `None` notes) come back as their documented load
defaults (`None` for empty optional text columns, `""` notes,
`"PNG"` output format). -/
theorem c2_save_load_roundtrip (r : QRCodeData) (now : String)
    (hval : r.validate = true) (hca : r.created_at ≠ "")
    (hinv : strFalsy r.logo_path = true → r.logo_scale = 1/5) :
    ∃ r2, rowToQRCodeData now (saveRow r) = some r2 ∧
      r2.id = r.id ∧ r2.data = r.data ∧ r2.qr_type = r.qr_type ∧
      r2.version = r.version ∧ r2.error_correction = r.error_correction ∧
      r2.size = r.size ∧ r2.border = r.border ∧
      r2.foreground_color = r.foreground_color ∧
      r2.background_color = r.background_color ∧
      (r2.logo_path = r.logo_path ∨ (r.logo_path = some "" ∧ r2.logo_path = none)) ∧
      r2.logo_scale = r.logo_scale ∧
      (r2.gradient_start = r.gradient_start ∨
        (r.gradient_start = some "" ∧ r2.gradient_start = none)) ∧
      (r2.gradient_end = r.gradient_end ∨
        (r.gradient_end = some "" ∧ r2.gradient_end = none)) ∧
      r2.gradient_type = r.gradient_type ∧
      r2.created_at = r.created_at ∧
      r2.tags = r.tags ∧
      (r2.notes = r.notes ∨ (r.notes = none ∧ r2.notes = some "")) ∧
      (r2.output_format = r.output_format ∨
        (r.output_format = "" ∧ r2.output_format = "PNG")) := by
  unfold QRCodeData.validate at hval
  simp only [Bool.and_eq_true] at hval
  obtain ⟨⟨⟨⟨⟨⟨⟨⟨⟨⟨⟨hd, hsz⟩, hbd⟩, hvv⟩, hec⟩, hsc⟩, hfg⟩, hbg⟩, hgs⟩, hge⟩, hgp⟩, hgt⟩ := hval
  have hecne : r.error_correction ≠ "" := by
    simp only [Bool.or_eq_true, beq_iff_eq] at hec
    rcases hec with ((h | h) | h) | h <;> simp [h]
  have hgtne : r.gradient_type ≠ "" := by
    simp only [Bool.or_eq_true, beq_iff_eq] at hgt
    rcases hgt with h | h <;> simp [h]
  have hscb : 1/20 ≤ r.logo_scale ∧ r.logo_scale ≤ 1/2 := by
    simp only [Bool.not_eq_true', Bool.or_eq_false_iff, decide_eq_false_iff_not,
      not_lt] at hsc
    exact hsc
  have hfgne := is_valid_color_ne_empty _ hfg
  have hbgne := is_valid_color_ne_empty _ hbg
  refine ⟨_, rfl, ?_⟩
  simp only [rowToQRCodeData, saveRow, mkQRCodeData, orElseStr, emptyToNone,
    ofValue_value, jsonDumpsList_ne_empty, jsonLoadsList_dumps, Option.getD_some,
    beq_iff_eq, if_neg hecne, if_neg hfgne, if_neg hbgne, if_neg hgtne, if_neg hca]
  simp only [true_and]
  have hsne : r.logo_scale ≠ 0 := by
    intro h0
    rw [h0] at hscb
    norm_num at hscb
  have hscale :
      (if r.logo_scale = 0 then (1 : ℚ)/5 else pctCoerce r.logo_scale) = r.logo_scale := by
    rw [if_neg hsne]
    unfold pctCoerce
    rw [if_neg (by linarith [hscb.2])]
  refine ⟨?_, ?_, ?_, ?_, by simp, ?_, ?_⟩
  · rcases r.logo_path with _ | p
    · exact Or.inl rfl
    · by_cases hpe : p = ""
      · subst hpe
        exact Or.inr ⟨rfl, by simp⟩
      · exact Or.inl (by simp [hpe])
  · rw [hscale, if_neg (not_lt.mpr hscb.1), if_neg (not_lt.mpr hscb.2),
      show (match r.logo_path with
            | some s => if s = "" then none else some s
            | none => none) = emptyToNone r.logo_path by
        cases r.logo_path <;> simp [emptyToNone],
      strFalsy_emptyToNone]
    by_cases hf : strFalsy r.logo_path = true
    · rw [if_pos hf, hinv hf]
    · rw [if_neg hf]
  · rcases r.gradient_start with _ | s
    · exact Or.inl rfl
    · by_cases hse : s = ""
      · subst hse
        exact Or.inr ⟨rfl, by simp⟩
      · exact Or.inl (by simp [hse])
  · rcases r.gradient_end with _ | s
    · exact Or.inl rfl
    · by_cases hse : s = ""
      · subst hse
        exact Or.inr ⟨rfl, by simp⟩
      · exact Or.inl (by simp [hse])
  · rcases r.notes with _ | s
    · exact Or.inr ⟨rfl, rfl⟩
    · by_cases hse : s = ""
      · subst hse
        exact Or.inl (by simp)
      · exact Or.inl (by simp [hse])
  · by_cases ho : r.output_format = ""
    · exact Or.inr ⟨ho, by simp [ho]⟩
    · exact Or.inl (by simp [ho])

/-- A concrete valid record used to instantiate hypothesised theorems. -/
def sampleRecord : QRCodeData :=
  ⟨"ab12cd34", "hello world", .TEXT, 0, "H", 10, 4, "#000000", "#FFFFFF",
    none, 1/5, none, none, "linear", "2026-01-10T10:00:00", ["greeting", "demo"],
    some "a note", "PNG"⟩

/-- Witness for C2 at a concrete valid record. -/
theorem c2_save_load_roundtrip_witness :
    (sampleRecord.validate = true ∧ sampleRecord.created_at ≠ "" ∧
      (strFalsy sampleRecord.logo_path = true → sampleRecord.logo_scale = 1/5)) ∧
    (∃ r2, rowToQRCodeData "2026-02-01T00:00:00" (saveRow sampleRecord) = some r2 ∧
      r2.id = sampleRecord.id ∧ r2.data = sampleRecord.data ∧
      r2.qr_type = sampleRecord.qr_type ∧
      r2.version = sampleRecord.version ∧ r2.error_correction = sampleRecord.error_correction ∧
      r2.size = sampleRecord.size ∧ r2.border = sampleRecord.border ∧
      r2.foreground_color = sampleRecord.foreground_color ∧
      r2.background_color = sampleRecord.background_color ∧
      (r2.logo_path = sampleRecord.logo_path ∨
        (sampleRecord.logo_path = some "" ∧ r2.logo_path = none)) ∧
      r2.logo_scale = sampleRecord.logo_scale ∧
      (r2.gradient_start = sampleRecord.gradient_start ∨
        (sampleRecord.gradient_start = some "" ∧ r2.gradient_start = none)) ∧
      (r2.gradient_end = sampleRecord.gradient_end ∨
        (sampleRecord.gradient_end = some "" ∧ r2.gradient_end = none)) ∧
      r2.gradient_type = sampleRecord.gradient_type ∧
      r2.created_at = sampleRecord.created_at ∧
      r2.tags = sampleRecord.tags ∧
      (r2.notes = sampleRecord.notes ∨ (sampleRecord.notes = none ∧ r2.notes = some "")) ∧
      (r2.output_format = sampleRecord.output_format ∨
        (sampleRecord.output_format = "" ∧ r2.output_format = "PNG"))) :=
  ⟨⟨by norm_num [sampleRecord, QRCodeData.validate, pyStrip, is_valid_color,
        isHexDigit, strFalsy]; decide, by decide, fun _ => rfl⟩,
    c2_save_load_roundtrip sampleRecord "2026-02-01T00:00:00"
      (by norm_num [sampleRecord, QRCodeData.validate, pyStrip, is_valid_color,
        isHexDigit, strFalsy]; decide)
      (by decide) (fun _ => rfl)⟩

/-- C3: every record built by the constructor (`__post_init__` included)
has `logo_scale` in `[0.05, 0.5]`, and a falsy `logo_path` (absent or
empty) forces `logo_scale = 0.2` regardless of the constructor input. -/
theorem mk_logo_scale (now id data : String) (qt : QRCodeType) (version : ℤ)
    (ec : String) (size border : ℤ) (fg bg : String) (lp : Option String)
    (ls : ℚ) (gs ge : Option String) (gt ca : String)
    (tags : Option (List String)) (notes : Option String) (fmt : String) :
    (mkQRCodeData now id data qt version ec size border fg bg lp ls
      gs ge gt ca tags notes fmt).logo_scale =
      if strFalsy lp = true then 1/5
      else if ls < 1/20 then 1/20 else if 1/2 < ls then 1/2 else ls := rfl

theorem c3_logo_scale_clamp_invariant (now id data : String) (qt : QRCodeType)
    (version : ℤ) (ec : String) (size border : ℤ) (fg bg : String)
    (lp : Option String) (ls : ℚ) (gs ge : Option String) (gt ca : String)
    (tags : Option (List String)) (notes : Option String) (fmt : String) :
    (1/20 ≤ (mkQRCodeData now id data qt version ec size border fg bg lp ls
        gs ge gt ca tags notes fmt).logo_scale ∧
      (mkQRCodeData now id data qt version ec size border fg bg lp ls
        gs ge gt ca tags notes fmt).logo_scale ≤ 1/2) ∧
    (strFalsy lp = true →
      (mkQRCodeData now id data qt version ec size border fg bg lp ls
        gs ge gt ca tags notes fmt).logo_scale = 1/5) := by
  rw [mk_logo_scale]
  constructor
  · split_ifs with h1 h2 h3
    · norm_num
    · norm_num
    · norm_num
    · exact ⟨not_lt.mp h2, not_lt.mp h3⟩
  · intro hf
    simp [hf]

/-- Witness for C3 at a concrete constructor input (an out-of-range scale
with no logo path). -/
theorem c3_logo_scale_clamp_invariant_witness :
    (1/20 ≤ (mkQRCodeData "t" "i" "d" .URL 0 "H" 10 4 "#000000" "#FFFFFF"
        none (9/10) none none "linear" "" none none "PNG").logo_scale ∧
      (mkQRCodeData "t" "i" "d" .URL 0 "H" 10 4 "#000000" "#FFFFFF"
        none (9/10) none none "linear" "" none none "PNG").logo_scale ≤ 1/2) ∧
    (strFalsy (none : Option String) = true →
      (mkQRCodeData "t" "i" "d" .URL 0 "H" 10 4 "#000000" "#FFFFFF"
        none (9/10) none none "linear" "" none none "PNG").logo_scale = 1/5) :=
  c3_logo_scale_clamp_invariant "t" "i" "d" .URL 0 "H" 10 4 "#000000" "#FFFFFF"
    none (9/10) none none "linear" "" none none "PNG"

theorem ofValue_eq_none (s : String) (h : ∀ t : QRCodeType, s ≠ t.value) :
    QRCodeType.ofValue s = none := by
  have h1 : (s == "URL") = false := beq_eq_false_iff_ne.mpr (h .URL)
  have h2 : (s == "文本") = false := beq_eq_false_iff_ne.mpr (h .TEXT)
  have h3 : (s == "WiFi") = false := beq_eq_false_iff_ne.mpr (h .WIFI)
  have h4 : (s == "电子名片") = false := beq_eq_false_iff_ne.mpr (h .VCARD)
  have h5 : (s == "电子邮件") = false := beq_eq_false_iff_ne.mpr (h .EMAIL)
  have h6 : (s == "短信") = false := beq_eq_false_iff_ne.mpr (h .SMS)
  have h7 : (s == "电话") = false := beq_eq_false_iff_ne.mpr (h .PHONE)
  have h8 : (s == "地理位置") = false := beq_eq_false_iff_ne.mpr (h .LOCATION)
  have h9 : (s == "日历事件") = false := beq_eq_false_iff_ne.mpr (h .EVENT)
  have h10 : (s == "比特币") = false := beq_eq_false_iff_ne.mpr (h .BITCOIN)
  have h11 : (s == "联系人") = false := beq_eq_false_iff_ne.mpr (h .CONTACT)
  have h12 : (s == "WhatsApp") = false := beq_eq_false_iff_ne.mpr (h .WHATSAPP)
  simp [QRCodeType.ofValue, h1, h2, h3, h4, h5, h6, h7, h8, h9, h10, h11, h12]

/-- C6: a stored row with an unrecognized `qr_type` string and every
optional column NULL (or missing) decodes without failure into a record
with the plain-text fallback type and the documented defaults. -/
theorem c6_defensive_row_decode (now : String) (row : DBRow)
    (hqt : ∀ t : QRCodeType, row.qr_type ≠ t.value)
    (hv : row.version = none) (hec : row.error_correction = none)
    (hsz : row.size = none) (hbd : row.border = none)
    (hfg : row.foreground_color = none) (hbg : row.background_color = none)
    (hlp : row.logo_path = none) (hgs : row.gradient_start = none)
    (hge : row.gradient_end = none) (hgt : row.gradient_type = none)
    (hca : row.created_at = none) (htg : row.tags = none)
    (hnt : row.notes = none) (hof : row.output_format = none)
    (hls : row.logo_scale = none) :
    ∃ r, rowToQRCodeData now row = some r ∧
      r.qr_type = QRCodeType.TEXT ∧ r.error_correction = "H" ∧ r.size = 10 ∧
      r.border = 4 ∧ r.foreground_color = "#000000" ∧
      r.background_color = "#FFFFFF" ∧ r.gradient_type = "linear" ∧
      r.output_format = "PNG" := by
  refine ⟨_, rfl, ?_⟩
  simp [rowToQRCodeData, mkQRCodeData, orElseStr, emptyToNone,
    ofValue_eq_none _ hqt, hv, hec, hsz, hbd, hfg, hbg, hlp, hgs, hge, hgt,
    hca, htg, hnt, hof, hls]

/-- Witness for C6 at a concrete corrupt row. -/
theorem c6_defensive_row_decode_witness :
    (∀ t : QRCodeType, "INVALID_TYPE" ≠ t.value) ∧
    (∃ r, rowToQRCodeData "t"
        ⟨"x1", "data", "INVALID_TYPE", none, none, none, none, none, none,
          none, none, none, none, none, none, none, none, none⟩ = some r ∧
      r.qr_type = QRCodeType.TEXT ∧ r.error_correction = "H" ∧ r.size = 10 ∧
      r.border = 4 ∧ r.foreground_color = "#000000" ∧
      r.background_color = "#FFFFFF" ∧ r.gradient_type = "linear" ∧
      r.output_format = "PNG") :=
  ⟨by intro t; cases t <;> decide,
    c6_defensive_row_decode "t"
      ⟨"x1", "data", "INVALID_TYPE", none, none, none, none, none, none,
        none, none, none, none, none, none, none, none, none⟩
      (by intro t; cases t <;> decide) rfl rfl rfl rfl rfl rfl rfl rfl rfl rfl
      rfl rfl rfl rfl rfl⟩

/-- C7: a row whose `logo_scale` column holds the integer 60 is coerced to
0.6 (percent over 100) by `_row_to_qrcode_data` and then clamped to 0.5 by
`__post_init__`, provided a (non-empty) logo path is set. -/
theorem c7_logo_scale_percent_then_clamp (now : String) (row : DBRow)
    (hls : row.logo_scale = some (.int 60))
    (hlp : ∃ p, row.logo_path = some p ∧ p ≠ "") :
    pctCoerce ((60 : ℤ) : ℚ) = 3/5 ∧
    ∀ r, rowToQRCodeData now row = some r → r.logo_scale = 1/2 := by
  constructor
  · norm_num [pctCoerce]
  · intro r hr
    obtain ⟨p, hp, hpe⟩ := hlp
    simp only [rowToQRCodeData, hls, hp, Option.some.injEq] at hr
    subst hr
    simp [mkQRCodeData, emptyToNone, strFalsy, hpe, pctCoerce]
    norm_num

/-- Witness for C7 at a concrete stored row. -/
theorem c7_logo_scale_percent_then_clamp_witness :
    pctCoerce ((60 : ℤ) : ℚ) = 3/5 ∧
    ∀ r, rowToQRCodeData "t"
        ⟨"x2", "data", "URL", some 0, some "H", some 10, some 4,
          some "#000000", some "#FFFFFF", some "logo.png", none, none,
          some "linear", some "2026-01-10T10:00:00", none, none, some "PNG",
          some (.int 60)⟩ = some r → r.logo_scale = 1/2 :=
  c7_logo_scale_percent_then_clamp "t"
    ⟨"x2", "data", "URL", some 0, some "H", some 10, some 4,
      some "#000000", some "#FFFFFF", some "logo.png", none, none,
      some "linear", some "2026-01-10T10:00:00", none, none, some "PNG",
      some (.int 60)⟩
    rfl ⟨"logo.png", rfl, by decide⟩

/-- Failure mode of one store call: success, `sqlite3.connect` itself
raising `sqlite3.Error`, or a later cursor operation raising it. -/
inductive DbFailure
  | ok
  | connectFails
  | queryFails
  deriving DecidableEq, Repr

/-- A Python exception escaping a store method. -/
inductive PyErr
  | unboundLocal
  deriving DecidableEq, Repr

/-- `QRCodeDatabase.get_all_qrcodes`: `qrcodes = []`, then
`try: conn = sqlite3.connect(...); ...` with `except sqlite3.Error`
printing, and `finally: if conn: conn.close()`.  The local `conn` is not
initialised before the `try`, so when `connect` raises, the `except`
absorbs the `sqlite3.Error` but the `finally` reads the unassigned local
and `UnboundLocalError` escapes to the caller; rows failing decode are
skipped (`filterMap`). -/
def get_all_qrcodes (fail : DbFailure) (rows : List DBRow) (now : String) :
    Except PyErr (List QRCodeData) :=
  let connBound : Bool := fail != .connectFails
  let qrcodes : List QRCodeData :=
    if fail = .ok then rows.filterMap (rowToQRCodeData now) else []
  if connBound then .ok qrcodes else .error .unboundLocal

/-- `QRCodeDatabase.delete_qrcode`: same `try/except/finally` shape as
`get_all_qrcodes`, also without `conn = None` before the `try`;
`existed` models `cursor.rowcount > 0`. -/
def delete_qrcode (fail : DbFailure) (existed : Bool) : Except PyErr Bool :=
  let connBound : Bool := fail != .connectFails
  let result : Bool := if fail = .ok then existed else false
  if connBound then .ok result else .error .unboundLocal

/-- `QRCodeDatabase.get_statistics`: `stats = \x7b\x7d`, filled inside the
`try`; the dict content (type grouping, 7-day counts, mean length) is
abstracted to the two totals, `none` standing for the empty dict left
when a query raises.  As in `get_all_qrcodes`, `conn` is unbound when
`connect` itself raises. -/
def get_statistics (fail : DbFailure) (totalQrcodes totalTemplates : ℕ) :
    Except PyErr (Option (ℕ × ℕ)) :=
  let connBound : Bool := fail != .connectFails
  let stats : Option (ℕ × ℕ) :=
    if fail = .ok then some (totalQrcodes, totalTemplates) else none
  if connBound then .ok stats else .error .unboundLocal

/-- `QRCodeDatabase.save_qrcode`: here `conn = None` IS assigned before
the `try`, so the `finally` guard is safe and a `sqlite3.Error` anywhere
yields `False`. -/
def save_qrcode (fail : DbFailure) (r : QRCodeData) : Except PyErr Bool :=
  match fail with
  | .ok => .ok true
  | _ => .ok false

/-- `QRCodeDatabase.load_qrcode`: `conn = None` before the `try`;
a `sqlite3.Error` yields `None`. -/
def load_qrcode (fail : DbFailure) (row : Option DBRow) (now : String) :
    Except PyErr (Option QRCodeData) :=
  match fail with
  | .ok =>
    .ok (match row with
      | some rw => rowToQRCodeData now rw
      | none => none)
  | _ => .ok none

/-- C4: the claim that every persistence-store operation absorbs every
storage-engine error fails on the code: in `get_all_qrcodes`,
`delete_qrcode` and `get_statistics` (and the other operations that do
not pre-initialise `conn`), a `sqlite3.Error` raised by `sqlite3.connect`
itself is caught by the `except` clause but the `finally` clause then
raises `UnboundLocalError` to the caller.  `save_qrcode` and
`load_qrcode` initialise `conn = None` first and do return their
conservative failure values. -/
theorem c4_store_connect_failure_propagates :
    (∀ rows now, get_all_qrcodes .connectFails rows now = .error .unboundLocal) ∧
    (∀ existed, delete_qrcode .connectFails existed = .error .unboundLocal) ∧
    (∀ nq nt, get_statistics .connectFails nq nt = .error .unboundLocal) ∧
    (∀ r : QRCodeData, save_qrcode .connectFails r = .ok false) ∧
    (∀ row now, load_qrcode .connectFails row now = .ok none) :=
  ⟨fun _ _ => rfl, fun _ => rfl, fun _ _ => rfl, fun _ => rfl, fun _ _ => rfl⟩

/-- Round half to even (Python `round`'s tie-breaking rule), on ℚ. -/
def roundHalfEven (x : ℚ) : ℤ :=
  let f := ⌊x⌋
  let r := x - f
  if r < 1/2 then f
  else if 1/2 < r then f + 1
  else if f % 2 = 0 then f else f + 1

/-- Python `round(x, 2)` modelled on exact rationals. -/
def pyRound2 (x : ℚ) : ℚ := (roundHalfEven (x * 100) : ℚ) / 100

/-- `QRCodeScanner._calculate_confidence`: confidence starts at 1.0, is
multiplied by `min(rect.width*rect.height/10000, 1)` when the bounding
box is non-degenerate, multiplied by `min(len(polygon)/4, 1)` only when
the polygon has at least 4 points, and finally rounded to two decimal
places. -/
def calculate_confidence (width height pointCount : ℕ) : ℚ :=
  let confidence : ℚ := 1
  let confidence :=
    if 0 < width ∧ 0 < height then
      confidence * min ((width * height : ℚ) / 10000) 1
    else confidence
  let confidence :=
    if 4 ≤ pointCount then confidence * min ((pointCount : ℚ) / 4) 1
    else confidence
  pyRound2 confidence

/-- The confidence formula as C8 words it: the plain product of the size
factor and the corner-count factor. -/
def specConfidence (width height pointCount : ℕ) : ℚ :=
  min ((width * height : ℚ) / 10000) 1 * min ((pointCount : ℚ) / 4) 1

/-- C8 counterexample: a hit with a 100×100 bounding box and a 2-point
polygon gets confidence 1.0 from the code (the corner factor is skipped
for fewer than 4 points), while the claim's product formula gives 0.5. -/
theorem c8_confidence_counterexample :
    calculate_confidence 100 100 2 = 1 ∧ specConfidence 100 100 2 = 1/2 ∧
    calculate_confidence 100 100 2 ≠ specConfidence 100 100 2 := by
  refine ⟨?_, ?_, ?_⟩ <;>
    norm_num [calculate_confidence, specConfidence, pyRound2, roundHalfEven]

/-- C8 amended: for a non-degenerate bounding box the computed confidence
equals the size factor `min(area/10000, 1)` rounded to two decimals,
independent of the polygon point count — the corner-count factor is
applied only when the polygon has at least 4 points, where
`min(count/4, 1) = 1`. -/
theorem calculate_confidence_eq (w h P : ℕ) :
    calculate_confidence w h P =
      pyRound2 (if 4 ≤ P then
          (if 0 < w ∧ 0 < h then 1 * min ((w * h : ℚ) / 10000) 1 else 1) *
            min ((P : ℚ) / 4) 1
        else (if 0 < w ∧ 0 < h then 1 * min ((w * h : ℚ) / 10000) 1 else 1)) := rfl

theorem c8_confidence_size_factor_only (w h P : ℕ) (hw : 0 < w) (hh : 0 < h) :
    calculate_confidence w h P = pyRound2 (min ((w * h : ℚ) / 10000) 1) := by
  rw [calculate_confidence_eq]
  by_cases hP : 4 ≤ P
  · have h1 : min ((P : ℚ) / 4) 1 = 1 := by
      refine min_eq_right ?_
      rw [le_div_iff₀ (by norm_num)]
      norm_num
      exact_mod_cast hP
    rw [if_pos hP, if_pos ⟨hw, hh⟩, h1, one_mul, mul_one]
  · rw [if_neg hP, if_pos ⟨hw, hh⟩, one_mul]

/-- Witness for C8's amended theorem at a concrete 40×60 box with a
3-point polygon. -/
theorem c8_confidence_size_factor_only_witness :
    0 < 40 ∧ 0 < 60 ∧
    calculate_confidence 40 60 3 = pyRound2 (min ((40 * 60 : ℚ) / 10000) 1) :=
  ⟨by decide, by decide,
    c8_confidence_size_factor_only 40 60 3 (by decide) (by decide)⟩

/-- One item of a batch run: the record id and whether its generation
succeeds (the per-item `try` body). -/
structure BatchItem where
  id : String
  ok : Bool
  deriving DecidableEq, Repr

/-- The message carried by a `progress_updated` emission of
`_generate_batch` (which format string was used). -/
inductive BatchMsg
  | start (total : ℕ)
  | generating (current total : ℕ) (id : String)
  | cancelled
  | summary (successful total : ℕ)
  deriving DecidableEq, Repr

/-- One signal emitted by `QRCodeEngine._generate_batch`, in order. -/
inductive BatchEvent
  | progress (value : ℕ) (msg : BatchMsg)
  | batchCompleted (done total : ℕ)
  | errorOccurred (id : String)
  deriving DecidableEq, Repr

/-- The loop of `_generate_batch`.  `stopAfter` models the cooperative
stop flag: `self.running` reads false at the top-of-iteration check (and
at the final summary check) exactly when at least `stopAfter` items have
completed.  `i` counts completed items, `succ` successful ones.  The
per-item percentage `int((i+1)/total*100)` is exact natural division
here (the float truncation agrees for these magnitudes). -/
def batchLoop (total stopAfter : ℕ) : List BatchItem → ℕ → ℕ → List BatchEvent
  | [], i, succ =>
    if stopAfter ≤ i then []
    else [.progress 100 (.summary succ total)]
  | item :: rest, i, succ =>
    if stopAfter ≤ i then
      [.progress 0 .cancelled, .batchCompleted i total]
    else
      .progress ((i + 1) * 100 / total) (.generating (i + 1) total item.id) ::
        (if item.ok then
          .batchCompleted (i + 1) total ::
            batchLoop total stopAfter rest (i + 1) (succ + 1)
        else
          .errorOccurred item.id ::
            .batchCompleted (i + 1) total ::
              batchLoop total stopAfter rest (i + 1) succ)

/-- `QRCodeEngine._generate_batch`: the start notification followed by
the loop over the batch items. -/
def generate_batch (items : List BatchItem) (stopAfter : ℕ) : List BatchEvent :=
  .progress 0 (.start items.length) :: batchLoop items.length stopAfter items 0 0

theorem getLast?_cons_of_some {α} (a : α) (l : List α) (e : α)
    (h : l.getLast? = some e) : (a :: l).getLast? = some e := by
  cases l with
  | nil => simp at h
  | cons b t => rw [List.getLast?_cons_cons]; exact h

theorem batchLoop_stopped (total k : ℕ) :
    ∀ (its : List BatchItem) (i succ : ℕ), i ≤ k → k < i + its.length →
      (batchLoop total k its i succ).getLast? = some (.batchCompleted k total) ∧
      (∀ s t, BatchEvent.progress 100 (.summary s t) ∉ batchLoop total k its i succ) ∧
      BatchEvent.progress 0 .cancelled ∈ batchLoop total k its i succ ∧
      (∀ v c t id, BatchEvent.progress v (.generating c t id) ∈
        batchLoop total k its i succ → c ≤ k) := by
  intro its
  induction its with
  | nil =>
    intro i succ h1 h2
    simp at h2
    omega
  | cons item rest ih =>
    intro i succ h1 h2
    rw [batchLoop]
    by_cases hstop : k ≤ i
    · have hik : i = k := le_antisymm h1 hstop
      subst hik
      rw [if_pos le_rfl]
      refine ⟨rfl, by simp, by simp, ?_⟩
      intro v c t id hm
      simp at hm
    · have hik : i < k := lt_of_le_of_ne h1 (fun he => hstop (le_of_eq he.symm))
      rw [if_neg (by omega)]
      have hrec := ih (i + 1) (if item.ok then succ + 1 else succ) (by omega)
        (by simp at h2 ⊢; omega)
      by_cases hok : item.ok
      · rw [if_pos hok]
        rw [if_pos hok] at hrec
        obtain ⟨hl, hs, hc, hg⟩ := hrec
        refine ⟨getLast?_cons_of_some _ _ _ (getLast?_cons_of_some _ _ _ hl), ?_, ?_, ?_⟩
        · intro s t
          simp only [List.mem_cons]
          push_neg
          exact ⟨by simp, by simp, hs s t⟩
        · exact List.mem_cons_of_mem _ (List.mem_cons_of_mem _ hc)
        · intro v c t id hm
          simp only [List.mem_cons] at hm
          rcases hm with he | he | hm
          · obtain ⟨-, he2⟩ := BatchEvent.progress.inj he
            obtain ⟨he3, -, -⟩ := BatchMsg.generating.inj he2
            omega
          · exact absurd he (by simp)
          · exact hg v c t id hm
      · rw [if_neg hok]
        rw [if_neg hok] at hrec
        obtain ⟨hl, hs, hc, hg⟩ := hrec
        refine ⟨getLast?_cons_of_some _ _ _ (getLast?_cons_of_some _ _ _
          (getLast?_cons_of_some _ _ _ hl)), ?_, ?_, ?_⟩
        · intro s t
          simp only [List.mem_cons]
          push_neg
          exact ⟨by simp, by simp, by simp, hs s t⟩
        · exact List.mem_cons_of_mem _ (List.mem_cons_of_mem _
            (List.mem_cons_of_mem _ hc))
        · intro v c t id hm
          simp only [List.mem_cons] at hm
          rcases hm with he | he | he | hm
          · obtain ⟨-, he2⟩ := BatchEvent.progress.inj he
            obtain ⟨he3, -, -⟩ := BatchMsg.generating.inj he2
            omega
          · exact absurd he (by simp)
          · exact absurd he (by simp)
          · exact hg v c t id hm

/-- C9: when the cooperative stop flag is signalled after item `k` of an
`N`-item batch completes (`k < N`), the run ends with a final
`batch_completed` emission carrying completed count `k < N`, emits the
cancelled partial-progress notification, processes no item beyond the
`k`-th (every per-item progress emission has current index at most `k`),
and never emits the 100% completion summary. -/
theorem c9_batch_stop (items : List BatchItem) (k : ℕ) (hk : k < items.length) :
    (generate_batch items k).getLast? =
      some (.batchCompleted k items.length) ∧
    (∀ s t, BatchEvent.progress 100 (.summary s t) ∉ generate_batch items k) ∧
    BatchEvent.progress 0 .cancelled ∈ generate_batch items k ∧
    (∀ v c t id, BatchEvent.progress v (.generating c t id) ∈
      generate_batch items k → c ≤ k) := by
  obtain ⟨hl, hs, hc, hg⟩ :=
    batchLoop_stopped items.length k items 0 0 (Nat.zero_le k) (by omega)
  refine ⟨getLast?_cons_of_some _ _ _ hl, ?_, ?_, ?_⟩
  · intro s t
    unfold generate_batch
    simp only [List.mem_cons]
    push_neg
    exact ⟨by simp, hs s t⟩
  · exact List.mem_cons_of_mem _ hc
  · intro v c t id hm
    unfold generate_batch at hm
    simp only [List.mem_cons] at hm
    rcases hm with he | hm
    · exact absurd he (by simp)
    · exact hg v c t id hm

/-- Witness for C9: a five-item batch stopped after the second item. -/
theorem c9_batch_stop_witness :
    (2 < (5 : ℕ)) ∧
    ((generate_batch [⟨"a", true⟩, ⟨"b", true⟩, ⟨"c", true⟩, ⟨"d", true⟩,
        ⟨"e", true⟩] 2).getLast? = some (.batchCompleted 2 5) ∧
    (∀ s t, BatchEvent.progress 100 (.summary s t) ∉
      generate_batch [⟨"a", true⟩, ⟨"b", true⟩, ⟨"c", true⟩, ⟨"d", true⟩,
        ⟨"e", true⟩] 2) ∧
    BatchEvent.progress 0 .cancelled ∈
      generate_batch [⟨"a", true⟩, ⟨"b", true⟩, ⟨"c", true⟩, ⟨"d", true⟩,
        ⟨"e", true⟩] 2 ∧
    (∀ v c t id, BatchEvent.progress v (.generating c t id) ∈
      generate_batch [⟨"a", true⟩, ⟨"b", true⟩, ⟨"c", true⟩, ⟨"d", true⟩,
        ⟨"e", true⟩] 2 → c ≤ 2)) :=
  ⟨by decide,
    c9_batch_stop [⟨"a", true⟩, ⟨"b", true⟩, ⟨"c", true⟩, ⟨"d", true⟩,
      ⟨"e", true⟩] 2 (by decide)⟩

/-- The `logo_scale` entry of the dictionary given to
`QRCodeData.from_dict`: key absent, `None`, a Python `int`, or a `float`
(exact value over ℚ). -/
inductive PyScaleVal
  | absent
  | pyNone
  | pyInt (n : ℤ)
  | pyFloat (q : ℚ)
  deriving DecidableEq, Repr

/-- The `logo_scale` block of `QRCodeData.from_dict`: default 0.2 when
the key is absent, `None` becomes 0.2, any `int` is divided by 100
(`isinstance(logo_scale, int)` holds regardless of magnitude), a `float`
is divided by 100 only when greater than 1. -/
def fromDictLogoScale : PyScaleVal → ℚ
  | .absent => 1/5
  | .pyNone => 1/5
  | .pyInt n => (n : ℚ) / 100
  | .pyFloat q => if 1 < q then q / 100 else q

/-- The fields `QRCodeData.from_dict` reads from its dictionary; each
`Option` models an absent key.  `qr_type` is modelled already converted
to the enum (the string and invalid branches are exercised elsewhere) and
`tags` already as a list. -/
structure RawDict where
  id : Option String
  data : Option String
  qr_type : Option QRCodeType
  version : Option ℤ
  error_correction : Option String
  size : Option ℤ
  border : Option ℤ
  foreground_color : Option String
  background_color : Option String
  logo_path : Option String
  logo_scale : PyScaleVal
  gradient_start : Option String
  gradient_end : Option String
  gradient_type : Option String
  created_at : Option String
  tags : Option (List String)
  notes : Option String
  output_format : Option String

/-- `QRCodeData.from_dict` (the generated fallback id and the current
time are passed as the parameters `genId` / `now`). -/
def from_dict (d : RawDict) (genId now : String) : QRCodeData :=
  mkQRCodeData now (d.id.getD genId) (d.data.getD "")
    (d.qr_type.getD .TEXT) (d.version.getD 0) (d.error_correction.getD "H")
    (d.size.getD 10) (d.border.getD 4) (d.foreground_color.getD "#000000")
    (d.background_color.getD "#FFFFFF") d.logo_path
    (fromDictLogoScale d.logo_scale) d.gradient_start d.gradient_end
    (d.gradient_type.getD "linear") (d.created_at.getD "")
    (some (d.tags.getD [])) (some (d.notes.getD "")) (d.output_format.getD "PNG")

/-- C10: `from_dict` divides every integer `logo_scale` by 100 regardless
of magnitude — 0 becomes 0.0 and 1 becomes 0.01 — so after the
construction-time clamp an integer `logo_scale` of 1 with a (non-empty)
logo path yields a record with `logo_scale` 0.05, not 0.5. -/
theorem c10_from_dict_int_logo_scale (d : RawDict) (genId now : String)
    (h1 : d.logo_scale = .pyInt 1) (h2 : strFalsy d.logo_path = false) :
    (∀ n : ℤ, fromDictLogoScale (.pyInt n) = (n : ℚ) / 100) ∧
    fromDictLogoScale (.pyInt 0) = 0 ∧
    fromDictLogoScale (.pyInt 1) = 1/100 ∧
    (from_dict d genId now).logo_scale = 1/20 ∧
    (from_dict d genId now).logo_scale ≠ 1/2 := by
  have hval : (from_dict d genId now).logo_scale = 1/20 := by
    unfold from_dict
    rw [mk_logo_scale, h2, h1]
    norm_num [fromDictLogoScale]
  refine ⟨fun n => rfl, by norm_num [fromDictLogoScale],
    by norm_num [fromDictLogoScale], hval, ?_⟩
  rw [hval]
  norm_num

/-- Witness for C10 at a concrete dictionary with integer `logo_scale` 1
and a logo path. -/
theorem c10_from_dict_int_logo_scale_witness :
    ((⟨some "i", some "d", some .URL, none, none, none, none, none, none,
        some "logo.png", .pyInt 1, none, none, none, none, none, none,
        none⟩ : RawDict).logo_scale = .pyInt 1 ∧
      strFalsy (⟨some "i", some "d", some .URL, none, none, none, none, none,
        none, some "logo.png", .pyInt 1, none, none, none, none, none, none,
        none⟩ : RawDict).logo_path = false) ∧
    ((∀ n : ℤ, fromDictLogoScale (.pyInt n) = (n : ℚ) / 100) ∧
      fromDictLogoScale (.pyInt 0) = 0 ∧
      fromDictLogoScale (.pyInt 1) = 1/100 ∧
      (from_dict ⟨some "i", some "d", some .URL, none, none, none, none, none,
        none, some "logo.png", .pyInt 1, none, none, none, none, none, none,
        none⟩ "g" "t").logo_scale = 1/20 ∧
      (from_dict ⟨some "i", some "d", some .URL, none, none, none, none, none,
        none, some "logo.png", .pyInt 1, none, none, none, none, none, none,
        none⟩ "g" "t").logo_scale ≠ 1/2) :=
  ⟨⟨rfl, by decide⟩,
    c10_from_dict_int_logo_scale
      ⟨some "i", some "d", some .URL, none, none, none, none, none, none,
        some "logo.png", .pyInt 1, none, none, none, none, none, none, none⟩
      "g" "t" rfl (by decide)⟩

/-- SQLite's ASCII-only case folding used by `LIKE`. -/
def asciiUpper (c : Char) : Char :=
  if ('a' ≤ c) && (c ≤ 'z') then Char.ofNat (c.toNat - 32) else c

/-- SQLite `LIKE` on character lists: `%` matches any run, `_` any single
character, any other pattern character matches ASCII-case-insensitively. -/
def likeChars : List Char → List Char → Bool
  | [], [] => true
  | [], _ :: _ => false
  | p :: ps, s =>
    if p == '%' then
      likeChars ps s ||
        (match s with
         | [] => false
         | _ :: s2 => likeChars (p :: ps) s2)
    else
      match s with
      | [] => false
      | c :: s2 =>
        if p == '_' then likeChars ps s2
        else (asciiUpper p == asciiUpper c) && likeChars ps s2
termination_by p s => (s.length, p.length)

/-- `pattern LIKE` applied to strings. -/
def likeMatch (pat s : String) : Bool :=
  likeChars pat.data s.data

/-- The WHERE clause built by `search_qrcodes`, applied to one row:
keyword condition `(data LIKE '%kw%' OR notes LIKE '%kw%')` — skipped
entirely when the keyword is falsy — an exact `qr_type` condition, and
one `tags LIKE '%"tag"%'` condition per requested tag, AND-combined.
`LIKE` against a NULL column is no match. -/
def rowMatchesQuery (keyword : Option String) (qrType : Option QRCodeType)
    (tagList : List String) (row : DBRow) : Bool :=
  (match keyword with
   | none => true
   | some k =>
     if k == "" then true
     else
       likeMatch ⟨'%' :: (k.data ++ ['%'])⟩ row.data ||
         (match row.notes with
          | some n => likeMatch ⟨'%' :: (k.data ++ ['%'])⟩ n
          | none => false)) &&
  (match qrType with
   | none => true
   | some t => row.qr_type == t.value) &&
  tagList.all (fun t =>
    match row.tags with
    | some s => likeMatch ⟨'%' :: '"' :: (t.data ++ ('"' :: ['%']))⟩ s
    | none => false)

/-- SQLite ordering of a nullable TEXT column: NULL sorts below text,
text compares bytewise (code-point order agrees with UTF-8 byte order). -/
def sqlLe (a b : Option String) : Bool :=
  match a, b with
  | none, _ => true
  | some _, none => false
  | some x, some y => decide (x ≤ y)

/-- Insertion into a list kept in `created_at`-descending order, the
model of `ORDER BY created_at DESC`. -/
def insertDesc (r : DBRow) : List DBRow → List DBRow
  | [] => [r]
  | x :: xs =>
    if sqlLe x.created_at r.created_at then r :: x :: xs
    else x :: insertDesc r xs

def sortByCreatedDesc (l : List DBRow) : List DBRow :=
  l.foldr insertDesc []

theorem insertDesc_perm (r : DBRow) (l : List DBRow) :
    (insertDesc r l).Perm (r :: l) := by
  induction l with
  | nil => exact List.Perm.refl _
  | cons x xs ih =>
    rw [insertDesc]
    split
    · exact List.Perm.refl _
    · exact (ih.cons x).trans (List.Perm.swap r x xs)

theorem sortByCreatedDesc_perm (l : List DBRow) :
    (sortByCreatedDesc l).Perm l := by
  induction l with
  | nil => exact List.Perm.refl _
  | cons x xs ih =>
    unfold sortByCreatedDesc at ih ⊢
    simp only [List.foldr_cons]
    exact (insertDesc_perm x _).trans (ih.cons x)

/-- `QRCodeDatabase.search_qrcodes` over the modelled table: filter by
the WHERE clause, count every match (the `COUNT(*)` query ignores
limit/offset), order by `created_at` descending, apply OFFSET then
LIMIT, and decode each surviving row (a row failing decode is
skipped). -/
def search_qrcodes (db : List DBRow) (keyword : Option String)
    (qrType : Option QRCodeType) (tagList : List String)
    (limit offset : ℕ) (now : String) : List QRCodeData × ℕ :=
  let matched := db.filter (rowMatchesQuery keyword qrType tagList)
  let total := matched.length
  let page := ((sortByCreatedDesc matched).drop offset).take limit
  (page.filterMap (rowToQRCodeData now), total)

/-- Case-sensitive substring containment of character lists. -/
def containsSub (needle hay : List Char) : Bool :=
  needle.isPrefixOf hay ||
    (match hay with
     | [] => false
     | _ :: t => containsSub needle t)

/-- A pattern fragment free of the `LIKE` wildcards `%` and `_`. -/
def noWildcard (l : List Char) : Bool :=
  l.all fun c => !(c == '%') && !(c == '_')

/-- C5's matching criterion as the claim words it: the keyword is a
case-sensitive substring of the payload or of the notes. -/
def csKeywordMatch (kw : String) (row : DBRow) : Bool :=
  containsSub kw.data row.data.data ||
    (match row.notes with
     | some n => containsSub kw.data n.data
     | none => false)

/-- The amended matching criterion: the keyword is an
ASCII-case-insensitive substring of the payload or of the notes. -/
def ciKeywordMatch (kw : String) (row : DBRow) : Bool :=
  containsSub (kw.data.map asciiUpper) (row.data.data.map asciiUpper) ||
    (match row.notes with
     | some n => containsSub (kw.data.map asciiUpper) (n.data.map asciiUpper)
     | none => false)

theorem containsSub_nil (hay : List Char) : containsSub [] hay = true := by
  cases hay <;> simp [containsSub, List.isPrefixOf]

theorem containsSub_iff (needle hay : List Char) :
    containsSub needle hay = true ↔
      ∃ i, needle.isPrefixOf (hay.drop i) = true := by
  induction hay with
  | nil =>
    rw [containsSub]
    constructor
    · intro h
      refine ⟨0, ?_⟩
      simpa using h
    · rintro ⟨i, hi⟩
      simp only [List.drop_nil] at hi
      simp [hi]
  | cons c t ih =>
    rw [containsSub]
    constructor
    · intro h
      rcases Bool.or_eq_true _ _ |>.mp h with h2 | h2
      · exact ⟨0, h2⟩
      · obtain ⟨i, hi⟩ := ih.mp h2
        exact ⟨i + 1, by simpa [List.drop_succ_cons] using hi⟩
    · rintro ⟨i, hi⟩
      refine Bool.or_eq_true _ _ |>.mpr ?_
      cases i with
      | zero => exact Or.inl hi
      | succ j =>
        rw [List.drop_succ_cons] at hi
        exact Or.inr (ih.mpr ⟨j, hi⟩)

theorem likeChars_nil_nil : likeChars [] [] = true := by
  rw [likeChars.eq_def]

theorem likeChars_nil_cons (c : Char) (s : List Char) :
    likeChars [] (c :: s) = false := by
  rw [likeChars.eq_def]

theorem likeChars_pct (p s : List Char) :
    likeChars ('%' :: p) s =
      (likeChars p s ||
        (match s with
         | [] => false
         | _ :: s2 => likeChars ('%' :: p) s2)) := by
  rw [likeChars.eq_def]
  simp

theorem likeChars_cons_nil (p : Char) (ps : List Char)
    (hp1 : (p == '%') = false) : likeChars (p :: ps) [] = false := by
  rw [likeChars.eq_def]
  simp [hp1]

theorem likeChars_cons_cons (p : Char) (ps : List Char) (c : Char) (s2 : List Char)
    (hp1 : (p == '%') = false) (hp2 : (p == '_') = false) :
    likeChars (p :: ps) (c :: s2) =
      ((asciiUpper p == asciiUpper c) && likeChars ps s2) := by
  rw [likeChars.eq_def]
  simp [hp1, hp2]

theorem likeChars_pct_all (s : List Char) : likeChars ['%'] s = true := by
  induction s with
  | nil =>
    rw [likeChars_pct]
    simp [likeChars_nil_nil]
  | cons c t ih =>
    rw [likeChars_pct]
    simp [ih]

theorem likeChars_pct_iff (p : List Char) (s : List Char) :
    likeChars ('%' :: p) s = true ↔ ∃ i, likeChars p (s.drop i) = true := by
  induction s with
  | nil =>
    rw [likeChars_pct]
    constructor
    · intro h
      refine ⟨0, ?_⟩
      simpa using h
    · rintro ⟨i, hi⟩
      simp only [List.drop_nil] at hi
      simp [hi]
  | cons c t ih =>
    rw [likeChars_pct]
    constructor
    · intro h
      rcases Bool.or_eq_true _ _ |>.mp h with h2 | h2
      · exact ⟨0, h2⟩
      · obtain ⟨i, hi⟩ := ih.mp h2
        exact ⟨i + 1, by simpa [List.drop_succ_cons] using hi⟩
    · rintro ⟨i, hi⟩
      refine Bool.or_eq_true _ _ |>.mpr ?_
      cases i with
      | zero => exact Or.inl hi
      | succ j =>
        rw [List.drop_succ_cons] at hi
        exact Or.inr (ih.mpr ⟨j, hi⟩)

theorem likeChars_plain_pct (kw : List Char) (hw : noWildcard kw = true) :
    ∀ s, likeChars (kw ++ ['%']) s = true ↔
      ∃ s1 s2, s = s1 ++ s2 ∧ kw.map asciiUpper = s1.map asciiUpper := by
  induction kw with
  | nil =>
    intro s
    simp only [List.nil_append, List.map_nil]
    constructor
    · intro _
      exact ⟨[], s, rfl, rfl⟩
    · intro _
      exact likeChars_pct_all s
  | cons c kw ih =>
    intro s
    have hget := by exact hw
    unfold noWildcard at hget
    rw [List.all_cons, Bool.and_eq_true] at hget
    obtain ⟨hc, hw2⟩ := hget
    rw [Bool.and_eq_true, Bool.not_eq_true', Bool.not_eq_true'] at hc
    have hw' : noWildcard kw = true := hw2
    have hc1 : (c == '%') = false := hc.1
    have hc2 : (c == '_') = false := hc.2
    cases s with
    | nil =>
      rw [show (c :: kw) ++ ['%'] = c :: (kw ++ ['%']) from rfl,
        likeChars_cons_nil _ _ hc1]
      constructor
      · intro h
        exact absurd h (by simp)
      · rintro ⟨s1, s2, he, hm⟩
        rcases List.append_eq_nil.mp he.symm with ⟨rfl, -⟩
        simp at hm
    | cons d s2 =>
      rw [show (c :: kw) ++ ['%'] = c :: (kw ++ ['%']) from rfl,
        likeChars_cons_cons _ _ _ _ hc1 hc2, Bool.and_eq_true]
      constructor
      · rintro ⟨h1, h2⟩
        obtain ⟨t1, t2, he, hm⟩ := (ih hw' s2).mp h2
        refine ⟨d :: t1, t2, by rw [he]; rfl, ?_⟩
        simp only [List.map_cons]
        rw [hm]
        congr 1
        exact beq_iff_eq.mp h1
      · rintro ⟨s1, s2', he, hm⟩
        cases s1 with
        | nil => simp at hm
        | cons d' s1' =>
          obtain ⟨hd, hrest⟩ := List.cons.injEq .. ▸ he
          simp only [List.map_cons, List.cons.injEq] at hm
          obtain ⟨hm1, hm2⟩ := hm
          refine ⟨?_, (ih hw' s2).mpr ⟨s1', s2', ?_, hm2⟩⟩
          · rw [beq_iff_eq, hm1, hd]
          · exact hrest

theorem likeChars_substring (kw : List Char) (hw : noWildcard kw = true)
    (s : List Char) :
    likeChars ('%' :: (kw ++ ['%'])) s =
      containsSub (kw.map asciiUpper) (s.map asciiUpper) := by
  rw [Bool.eq_iff_iff, likeChars_pct_iff, containsSub_iff]
  constructor
  · rintro ⟨i, hi⟩
    obtain ⟨s1, s2, he, hm⟩ := (likeChars_plain_pct kw hw _).mp hi
    refine ⟨i, ?_⟩
    rw [List.isPrefixOf_iff_prefix, ← List.map_drop, he, List.map_append, hm]
    exact List.prefix_append _ _
  · rintro ⟨i, hi⟩
    rw [List.isPrefixOf_iff_prefix, ← List.map_drop] at hi
    obtain ⟨t, ht⟩ := hi
    obtain ⟨l1, l2, hsplit, hm1, hm2⟩ := List.map_eq_append_iff.mp ht.symm
    exact ⟨i, (likeChars_plain_pct kw hw _).mpr ⟨l1, l2, hsplit, hm1.symm⟩⟩

theorem rowMatchesQuery_keyword (kw : String) (hw : noWildcard kw.data = true)
    (row : DBRow) :
    rowMatchesQuery (some kw) none [] row = ciKeywordMatch kw row := by
  unfold rowMatchesQuery ciKeywordMatch
  simp only [List.all_nil, Bool.and_true]
  by_cases hk : (kw == "") = true
  · rw [if_pos hk]
    have hkd : kw.data = [] := congrArg String.data (beq_iff_eq.mp hk)
    rw [hkd]
    simp [containsSub_nil]
  · rw [if_neg hk]
    unfold likeMatch
    rw [show (⟨'%' :: (kw.data ++ ['%'])⟩ : String).data =
      '%' :: (kw.data ++ ['%']) from rfl]
    cases row.notes <;>
      simp [likeChars_substring kw.data hw]

/-- C5 amended: searching with a keyword free of `LIKE` wildcards (the
keyword text is interpolated into a `LIKE` pattern) returns, whenever all
matches fit in the limit and offset is 0, exactly the records whose
payload or notes contain the keyword as an ASCII-case-insensitive
substring — not case-sensitive — together with the total match count
computed ignoring limit and offset. -/
theorem c5_search_keyword (db : List DBRow) (kw now : String) (limit : ℕ)
    (hw : noWildcard kw.data = true)
    (hl : (db.filter (ciKeywordMatch kw)).length ≤ limit) :
    (search_qrcodes db (some kw) none [] limit 0 now).1.Perm
      ((db.filter (ciKeywordMatch kw)).filterMap (rowToQRCodeData now)) ∧
    (search_qrcodes db (some kw) none [] limit 0 now).2 =
      (db.filter (ciKeywordMatch kw)).length := by
  have hfeq : db.filter (rowMatchesQuery (some kw) none []) =
      db.filter (ciKeywordMatch kw) :=
    List.filter_congr fun r _ => rowMatchesQuery_keyword kw hw r
  unfold search_qrcodes
  simp only [hfeq, List.drop_zero]
  constructor
  · rw [List.take_of_length_le
      (by rw [(sortByCreatedDesc_perm _).length_eq]; exact hl)]
    exact List.Perm.filterMap _ (sortByCreatedDesc_perm _)
  · trivial

/-- The three-record table of C5's scenario. -/
def scenarioDb : List DBRow :=
  [⟨"r1", "xx test-A", "URL", some 0, some "H", some 10, some 4,
      some "#000000", some "#FFFFFF", none, none, none, some "linear",
      some "2026-01-03T00:00:00", none, none, some "PNG", none⟩,
   ⟨"r2", "test-B!", "URL", some 0, some "H", some 10, some 4,
      some "#000000", some "#FFFFFF", none, none, none, some "linear",
      some "2026-01-02T00:00:00", none, none, some "PNG", none⟩,
   ⟨"r3", "other", "URL", some 0, some "H", some 10, some 4,
      some "#000000", some "#FFFFFF", none, none, none, some "linear",
      some "2026-01-01T00:00:00", none, none, some "PNG", none⟩]

/-- Witness for C5's amended theorem: on the three-record scenario table,
searching "test" matches exactly 2 records and reports total 2. -/
theorem c5_search_keyword_witness :
    (noWildcard ("test" : String).data = true ∧
      (scenarioDb.filter (ciKeywordMatch "test")).length ≤ 100) ∧
    ((search_qrcodes scenarioDb (some "test") none [] 100 0 "t").1.Perm
      ((scenarioDb.filter (ciKeywordMatch "test")).filterMap
        (rowToQRCodeData "t")) ∧
     (search_qrcodes scenarioDb (some "test") none [] 100 0 "t").2 =
      (scenarioDb.filter (ciKeywordMatch "test")).length) ∧
    (scenarioDb.filter (ciKeywordMatch "test")).length = 2 :=
  ⟨⟨by decide, by decide⟩,
    c5_search_keyword scenarioDb "test" "t" 100 (by decide) (by decide),
    by decide⟩

/-- A stored record whose payload differs from the keyword only in ASCII
case. -/
def rowTEST : DBRow :=
  ⟨"r9", "TEST", "URL", some 0, some "H", some 10, some 4,
    some "#000000", some "#FFFFFF", none, none, none, some "linear",
    some "2026-01-01T00:00:00", none, none, some "PNG", none⟩

/-- C5 counterexample: SQLite `LIKE` is ASCII-case-insensitive, so
searching keyword "test" reports total 1 on a table whose only record has
payload "TEST", while the claim's case-sensitive-substring criterion
matches 0 records. -/
theorem c5_case_sensitivity_counterexample :
    (search_qrcodes [rowTEST] (some "test") none [] 100 0 "t").2 = 1 ∧
    ([rowTEST].filter (csKeywordMatch "test")).length = 0 ∧
    csKeywordMatch "test" rowTEST = false := by
  have h := rowMatchesQuery_keyword "test" (by decide) rowTEST
  have hci : ciKeywordMatch "test" rowTEST = true := by decide
  refine ⟨?_, by decide, by decide⟩
  unfold search_qrcodes
  simp [h, hci]

/-- A pair of hexadecimal digit characters, as parsed by
`int(color_str[i:i+2], 16)` (the extra leniencies of Python's `int`,
such as surrounding whitespace, are unexercised on 2-character hex
slices of a validated colour string). -/
def hexPair (a b : Char) : Option ℕ :=
  match hexVal a, hexVal b with
  | some hi, some lo => some (hi * 16 + lo)
  | _, _ => none

/-- `QRCodeEngine._parse_color`: `#RGB` (shorthand doubled per character)
or `#RRGGBB` to an RGB triple; `none` models the raised `ValueError`. -/
def parseColor (color_str : String) : Option (ℕ × ℕ × ℕ) :=
  match color_str.data with
  | '#' :: rest =>
    let body := if rest.length = 3 then rest.flatMap (fun c => [c, c]) else rest
    match body with
    | [a, b, c, d, e, f] =>
      match hexPair a b, hexPair c d, hexPair e f with
      | some r, some g, some bl => some (r, g, bl)
      | _, _, _ => none
    | _ => none
  | _ => none

/-- Python `int(x)` on a float: truncation toward zero (modelled on ℝ). -/
noncomputable def pyTrunc (x : ℝ) : ℤ := if 0 ≤ x then ⌊x⌋ else ⌈x⌉

/-- The gradient mix ratio computed by `_generate_gradient_qr` for the
module at column `x`, row `y` of an `n×n` module matrix (float
arithmetic modelled over ℝ): radial uses the integer centre
`(n//2, n//2)`, distance `sqrt((x-c)²+(y-c)²)`, and `max_distance =
sqrt(n²·2)` guarded against zero; any other `gradient_type` takes the
linear branch `(x+y)/(n·2)`. -/
noncomputable def gradientRatio (gradient_type : String) (n x y : ℕ) : ℝ :=
  if gradient_type = "radial" then
    let c : ℕ := n / 2
    let distance : ℝ := Real.sqrt (((x : ℝ) - c) ^ 2 + ((y : ℝ) - c) ^ 2)
    let maxDistance : ℝ := Real.sqrt ((n : ℝ) ^ 2 * 2)
    if 0 < maxDistance then distance / maxDistance else 0
  else ((x : ℝ) + y) / (n * 2)

/-- The fill colour `_generate_gradient_qr` draws over the rectangle of
one "on" module: each channel `int(start*(1-ratio) + end*ratio)`. -/
noncomputable def moduleColor (gradient_type : String) (cs ce : ℕ × ℕ × ℕ)
    (n x y : ℕ) : ℤ × ℤ × ℤ :=
  let ratio := gradientRatio gradient_type n x y
  (pyTrunc ((cs.1 : ℝ) * (1 - ratio) + (ce.1 : ℝ) * ratio),
   pyTrunc ((cs.2.1 : ℝ) * (1 - ratio) + (ce.2.1 : ℝ) * ratio),
   pyTrunc ((cs.2.2 : ℝ) * (1 - ratio) + (ce.2.2 : ℝ) * ratio))

/-- The ratio as C1 words it: identical linear rule, but the radial
distance normalized by the matrix's diagonal HALF-length
`sqrt(n²·2)/2`. -/
noncomputable def specGradientRatio (gradient_type : String) (n x y : ℕ) : ℝ :=
  if gradient_type = "radial" then
    let c : ℕ := n / 2
    let distance : ℝ := Real.sqrt (((x : ℝ) - c) ^ 2 + ((y : ℝ) - c) ^ 2)
    let halfDiagonal : ℝ := Real.sqrt ((n : ℝ) ^ 2 * 2) / 2
    if 0 < halfDiagonal then distance / halfDiagonal else 0
  else ((x : ℝ) + y) / (n * 2)

/-- The module colour under C1's wording of the radial normalization. -/
noncomputable def specModuleColor (gradient_type : String) (cs ce : ℕ × ℕ × ℕ)
    (n x y : ℕ) : ℤ × ℤ × ℤ :=
  let ratio := specGradientRatio gradient_type n x y
  (pyTrunc ((cs.1 : ℝ) * (1 - ratio) + (ce.1 : ℝ) * ratio),
   pyTrunc ((cs.2.1 : ℝ) * (1 - ratio) + (ce.2.1 : ℝ) * ratio),
   pyTrunc ((cs.2.2 : ℝ) * (1 - ratio) + (ce.2.2 : ℝ) * ratio))

/-- The amended ratio: radial distance from the integer centre divided by
the FULL diagonal length `n·sqrt 2` (zero for an empty matrix). -/
noncomputable def amendedGradientRatio (gradient_type : String) (n x y : ℕ) : ℝ :=
  if gradient_type = "radial" then
    if n = 0 then 0
    else
      Real.sqrt (((x : ℝ) - (n / 2 : ℕ)) ^ 2 + ((y : ℝ) - (n / 2 : ℕ)) ^ 2) /
        ((n : ℝ) * Real.sqrt 2)
  else ((x : ℝ) + y) / (n * 2)

/-- The module colour under the amended wording. -/
noncomputable def amendedModuleColor (gradient_type : String) (cs ce : ℕ × ℕ × ℕ)
    (n x y : ℕ) : ℤ × ℤ × ℤ :=
  let ratio := amendedGradientRatio gradient_type n x y
  (pyTrunc ((cs.1 : ℝ) * (1 - ratio) + (ce.1 : ℝ) * ratio),
   pyTrunc ((cs.2.1 : ℝ) * (1 - ratio) + (ce.2.1 : ℝ) * ratio),
   pyTrunc ((cs.2.2 : ℝ) * (1 - ratio) + (ce.2.2 : ℝ) * ratio))

theorem sqrt_eight_eq : Real.sqrt ((2 : ℝ) ^ 2 * 2) = 2 * Real.sqrt 2 := by
  rw [Real.sqrt_mul (by positivity), Real.sqrt_sq (by norm_num)]

/-- C1 counterexample: a black-to-white radial gradient on a 2×2 matrix.
At module (0,0) the code's ratio is `sqrt 2 / sqrt 8 = 1/2` giving
channel `int(127.5) = 127`, while the claim's half-diagonal
normalization gives ratio 1 and channel 255. -/
theorem c1_radial_normalization_counterexample :
    parseColor "#000000" = some (0, 0, 0) ∧
    parseColor "#FFFFFF" = some (255, 255, 255) ∧
    moduleColor "radial" (0, 0, 0) (255, 255, 255) 2 0 0 = (127, 127, 127) ∧
    specModuleColor "radial" (0, 0, 0) (255, 255, 255) 2 0 0 = (255, 255, 255) ∧
    (127 : ℤ) ≠ 255 := by
  have hs2 : (0 : ℝ) < Real.sqrt 2 := Real.sqrt_pos.mpr (by norm_num)
  have hdist : Real.sqrt (((0 : ℕ) - ((2 : ℕ) / 2 : ℕ) : ℝ) ^ 2 +
      ((0 : ℕ) - ((2 : ℕ) / 2 : ℕ) : ℝ) ^ 2) = Real.sqrt 2 := by
    norm_num
  have hratio : gradientRatio "radial" 2 0 0 = 1 / 2 := by
    unfold gradientRatio
    rw [if_pos rfl]
    simp only []
    rw [if_pos (by rw [show ((2 : ℕ) : ℝ) ^ 2 * 2 = (2 : ℝ) ^ 2 * 2 by norm_num,
      sqrt_eight_eq]; positivity)]
    rw [show ((2 : ℕ) : ℝ) ^ 2 * 2 = (2 : ℝ) ^ 2 * 2 by norm_num, sqrt_eight_eq]
    rw [show (((0 : ℕ) : ℝ) - ((2 : ℕ) / 2 : ℕ)) ^ 2 +
      (((0 : ℕ) : ℝ) - ((2 : ℕ) / 2 : ℕ)) ^ 2 = 2 by norm_num]
    field_simp
    ring
  have hsratio : specGradientRatio "radial" 2 0 0 = 1 := by
    unfold specGradientRatio
    rw [if_pos rfl]
    simp only []
    rw [if_pos (by rw [show ((2 : ℕ) : ℝ) ^ 2 * 2 = (2 : ℝ) ^ 2 * 2 by norm_num,
      sqrt_eight_eq]; positivity)]
    rw [show ((2 : ℕ) : ℝ) ^ 2 * 2 = (2 : ℝ) ^ 2 * 2 by norm_num, sqrt_eight_eq]
    rw [show (((0 : ℕ) : ℝ) - ((2 : ℕ) / 2 : ℕ)) ^ 2 +
      (((0 : ℕ) : ℝ) - ((2 : ℕ) / 2 : ℕ)) ^ 2 = 2 by norm_num]
    field_simp
  refine ⟨by decide, by decide, ?_, ?_, by decide⟩
  · unfold moduleColor
    rw [hratio]
    unfold pyTrunc
    norm_num [Int.floor_eq_iff]
  · unfold specModuleColor
    rw [hsratio]
    unfold pyTrunc
    norm_num

/-- C1 amended: for a gradient record, every "on" module's rectangle is
filled with channels `int(start·(1−ratio) + end·ratio)`, where for
`gradient_type` linear `ratio = (x+y)/(2n)` and for radial `ratio` is the
Euclidean distance from `(⌊n/2⌋, ⌊n/2⌋)` divided by the matrix's FULL
diagonal length `n·√2` (not the half-length; 0 for an empty matrix). -/
theorem c1_gradient_module_color (gradient_type : String) (cs ce : ℕ × ℕ × ℕ)
    (n x y : ℕ) (hgt : gradient_type = "linear" ∨ gradient_type = "radial") :
    moduleColor gradient_type cs ce n x y =
      amendedModuleColor gradient_type cs ce n x y := by
  suffices h : gradientRatio gradient_type n x y =
      amendedGradientRatio gradient_type n x y by
    unfold moduleColor amendedModuleColor
    rw [h]
  unfold gradientRatio amendedGradientRatio
  rcases hgt with h | h <;> subst h
  · rfl
  · rw [if_pos rfl, if_pos rfl]
    simp only []
    by_cases hn : n = 0
    · subst hn
      rw [if_pos rfl]
      rw [if_neg (by simp)]
    · rw [if_neg hn]
      have hsq : Real.sqrt ((n : ℝ) ^ 2 * 2) = (n : ℝ) * Real.sqrt 2 := by
        rw [Real.sqrt_mul (by positivity), Real.sqrt_sq (by positivity)]
      rw [if_pos (by rw [hsq]; positivity), hsq]

/-- Witness for C1's amended theorem at a concrete radial input. -/
theorem c1_gradient_module_color_witness :
    ("radial" = "linear" ∨ "radial" = "radial") ∧
    moduleColor "radial" (0, 0, 0) (255, 255, 255) 2 0 0 =
      amendedModuleColor "radial" (0, 0, 0) (255, 255, 255) 2 0 0 :=
  ⟨Or.inr rfl,
    c1_gradient_module_color "radial" (0, 0, 0) (255, 255, 255) 2 0 0
      (Or.inr rfl)⟩

end QRT
